import Mathlib

/-!
Verification of the experiflow-proxy repository: a shallow embedding of the
variant-assignment engine (internal/variant), the DOM mutation engine
(internal/transform) and the response-modification orchestrator
(internal/middleware), together with theorems settling the specification
claims.  Go strings are Lean String values; Go byte slices are List Nat
(each entry < 256); Go float64 traffic allocations are embedded as ℚ;
external collaborators (the HTML parser/renderer, the experiment API, the
process clock and the PRNG) are oracle parameters.
-/

namespace EF

/-! ## String utilities (models of the Go strings package functions used) -/

/-- Whitespace test used by Go strings.TrimSpace / strings.Fields for the
ASCII range: space, tab, newline, vertical tab, form feed, carriage return. -/
def isSpaceChar (c : Char) : Bool :=
  c.toNat = 32 || c.toNat = 9 || c.toNat = 10 || c.toNat = 11 || c.toNat = 12 || c.toNat = 13

/-- Drop characters satisfying p from both ends of a character list
(Go strings.Trim with a character-set cutset). -/
def trimBoth (p : Char → Bool) (l : List Char) : List Char :=
  ((l.dropWhile p).reverse.dropWhile p).reverse

/-- Model of Go strings.TrimSpace (ASCII whitespace). -/
def trimSpaceStr (s : String) : String := ⟨trimBoth isSpaceChar s.data⟩

/-- Model of Go strings.Trim with cutset made of double and single quote. -/
def trimQuotesStr (s : String) : String :=
  ⟨trimBoth (fun c => c = '"' || c = '\'') s.data⟩

/-- Model of Go strings.HasPrefix. -/
def startsWithStr (s pre : String) : Bool := pre.data.isPrefixOf s.data

/-- Model of Go strings.HasSuffix. -/
def endsWithStr (s suf : String) : Bool := suf.data.reverse.isPrefixOf s.data.reverse

/-- Drop the first n characters of a string (Go slice s[n:]). -/
def dropStr (s : String) (n : Nat) : String := ⟨s.data.drop n⟩

/-- Go slice s[1:len(s)-1], used to strip the brackets of an attribute selector. -/
def innerStr (s : String) : String := ⟨(s.data.drop 1).dropLast⟩

/-- Model of Go strings.SplitN(s, sep, 2) for a one-character separator:
returns the part before the first separator and, when a separator occurs,
the rest after it. -/
def split2 (sep : Char) (s : String) : String × Option String :=
  match s.data.span (fun c => c != sep) with
  | (a, []) => (⟨a⟩, none)
  | (a, _ :: b) => (⟨a⟩, some ⟨b⟩)

/-- Model of Go strings.Split(s, sep) for a one-character separator. -/
def splitCharAux (sep : Char) : List Char → List Char → List String
  | [], acc => [⟨acc.reverse⟩]
  | c :: rest, acc =>
      if c = sep then ⟨acc.reverse⟩ :: splitCharAux sep rest []
      else splitCharAux sep rest (c :: acc)

/-- Split on every occurrence of a one-character separator (Go strings.Split). -/
def splitChar (sep : Char) (s : String) : List String := splitCharAux sep s.data []

/-- Model of Go strings.Fields: whitespace-separated tokens, no empties. -/
def fieldsAux : List Char → List Char → List String
  | [], acc => if acc.isEmpty then [] else [⟨acc.reverse⟩]
  | c :: rest, acc =>
      if isSpaceChar c then
        if acc.isEmpty then fieldsAux rest [] else ⟨acc.reverse⟩ :: fieldsAux rest []
      else fieldsAux rest (c :: acc)

/-- Whitespace-separated fields of a string. -/
def fieldsStr (s : String) : List String := fieldsAux s.data []

/-- Substring containment on character lists (Go strings.Contains). -/
def containsSubAux : List Char → List Char → Bool
  | [], needle => needle.isEmpty
  | c :: t, needle => needle.isPrefixOf (c :: t) || containsSubAux t needle

/-- Model of Go strings.Contains. -/
def containsStr (hay needle : String) : Bool := containsSubAux hay.data needle.data

/-! ## The document tree (golang.org/x/net/html node graph, tree view)

The Go html.Node is a mutable node with a Type, Data (tag name or text),
an attribute list and child pointers; mutation happens through pointers.
The embedding is the purely functional tree view: a node owns its ordered
attribute list and its ordered child list, and the in-place mutations of
operations.go become tree rewrites (the correspondence is one-to-one
because every selector predicate is node-local and nodes are collected
before any mutation runs). -/

/-- Node kinds of golang.org/x/net/html that the engine can meet. -/
inductive NType where
  | element
  | textNode
  | document
  | comment
  | doctype
deriving DecidableEq

/-- A document tree node: kind, data (tag name or text), attributes, children. -/
inductive HNode where
  | mk (ntype : NType) (data : String) (attrs : List (String × String)) (children : List HNode)

/-- Node kind projection. -/
def HNode.ntype : HNode → NType
  | .mk t _ _ _ => t

/-- Node data projection (tag name for elements, text for text nodes). -/
def HNode.data : HNode → String
  | .mk _ d _ _ => d

/-- Attribute list projection. -/
def HNode.attrs : HNode → List (String × String)
  | .mk _ _ a _ => a

/-- Child list projection. -/
def HNode.children : HNode → List HNode
  | .mk _ _ _ cs => cs

/-- Structural induction on nodes through the child lists. -/
theorem HNode.inductionOn (P : HNode → Prop)
    (step : ∀ t d a cs, (∀ c ∈ cs, P c) → P (HNode.mk t d a cs)) : ∀ n, P n := by
  have key : ∀ k n, sizeOf n ≤ k → P n := by
    intro k
    induction k with
    | zero =>
        intro n hle
        cases n with
        | mk t d a cs => simp at hle
    | succ k ih =>
        intro n hle
        cases n with
        | mk t d a cs =>
            apply step
            intro c hc
            apply ih
            have h1 : sizeOf c < sizeOf cs := List.sizeOf_lt_of_mem hc
            have h2 : sizeOf (HNode.mk t d a cs) = 1 + sizeOf t + sizeOf d + sizeOf a + sizeOf cs := by
              simp
            omega
  intro n
  exact key (sizeOf n) n le_rfl

/-! ## Selector helpers (operations.go: getAttr, hasAttr, hasClass) -/

/-- Model of getAttr in operations.go: the value of the first attribute with
the given key, empty string for a missing attribute or a non-element node. -/
def getAttr (n : HNode) (key : String) : String :=
  if n.ntype ≠ NType.element then ""
  else ((n.attrs.find? (fun p => p.1 == key)).map (fun p => p.2)).getD ""

/-- Model of hasAttr in operations.go. -/
def hasAttr (n : HNode) (key : String) : Bool :=
  if n.ntype ≠ NType.element then false
  else n.attrs.any (fun p => p.1 == key)

/-- Model of hasClass in operations.go: the class attribute, split into
whitespace-separated fields, contains the name. -/
def hasClass (n : HNode) (className : String) : Bool :=
  if n.ntype ≠ NType.element then false
  else (fieldsStr (getAttr n "class")).any (fun c => c == className)

/-- Model of the matchFunc closure built by findNodesBySelector in
operations.go: trim the selector, classify it by its first (and last)
character, and return the per-node predicate. -/
def matchFun (selector : String) (n : HNode) : Bool :=
  let sel := trimSpaceStr selector
  if startsWithStr sel "." then
    hasClass n (dropStr sel 1)
  else if startsWithStr sel "#" then
    getAttr n "id" == dropStr sel 1
  else if startsWithStr sel "[" && endsWithStr sel "]" then
    let attrStr := innerStr sel
    match split2 '=' attrStr with
    | (key, none) => hasAttr n (trimSpaceStr key)
    | (key, some v) => getAttr n (trimSpaceStr key) == trimQuotesStr (trimSpaceStr v)
  else
    n.ntype == NType.element && n.data == sel

mutual

/-- Pre-order collection walk of findNodesBySelector in operations.go. -/
def walkCollect (m : HNode → Bool) : HNode → List HNode
  | .mk t d a cs => (if m (.mk t d a cs) then [HNode.mk t d a cs] else []) ++ walkCollectList m cs

/-- List part of the collection walk. -/
def walkCollectList (m : HNode → Bool) : List HNode → List HNode
  | [] => []
  | c :: cs => walkCollect m c ++ walkCollectList m cs
end

/-- Model of findNodesBySelector in operations.go. -/
def findNodesBySelector (doc : HNode) (selector : String) : List HNode :=
  walkCollect (matchFun selector) doc

mutual

/-- Full pre-order listing of the nodes of a tree. -/
def preorder : HNode → List HNode
  | .mk t d a cs => HNode.mk t d a cs :: preorderList cs

/-- List part of the pre-order listing. -/
def preorderList : List HNode → List HNode
  | [] => []
  | c :: cs => preorder c ++ preorderList cs
end

/-- Collection over a child list is filtering the pre-order listing,
assuming it holds for each child. -/
theorem walkCollectList_eq_filter (m : HNode → Bool) (cs : List HNode)
    (h : ∀ c ∈ cs, walkCollect m c = (preorder c).filter m) :
    walkCollectList m cs = (preorderList cs).filter m := by
  induction cs with
  | nil => rfl
  | cons c cs ih =>
      rw [walkCollectList, preorderList, List.filter_append,
        h c (List.mem_cons_self c cs), ih (fun x hx => h x (List.mem_cons_of_mem c hx))]

/-- The collection walk of findNodesBySelector visits the full tree in
pre-order and keeps exactly the nodes its predicate accepts. -/
theorem walkCollect_eq_filter (m : HNode → Bool) (n : HNode) :
    walkCollect m n = (preorder n).filter m := by
  refine HNode.inductionOn (fun n => walkCollect m n = (preorder n).filter m) ?_ n
  intro t d a cs ih
  rw [walkCollect, preorder, walkCollectList_eq_filter m cs ih]
  cases hm : m (HNode.mk t d a cs) <;> simp [List.filter_cons, hm]

/-- Per-node selector predicate as the amended claim words it: the selector
is first trimmed of surrounding whitespace, then classified; attribute and
id lookups read a missing attribute (or a non-element node) as the empty
string; the value of an attribute-equality selector is trimmed and then
stripped of surrounding single or double quotes; a tag selector matches
element nodes whose tag equals the trimmed selector. -/
def specMatch (selector : String) (n : HNode) : Bool :=
  let sel := trimSpaceStr selector
  if startsWithStr sel "." then
    decide (dropStr sel 1 ∈ fieldsStr (getAttr n "class"))
  else if startsWithStr sel "#" then
    decide (getAttr n "id" = dropStr sel 1)
  else if startsWithStr sel "[" && endsWithStr sel "]" then
    match split2 '=' (innerStr sel) with
    | (key, none) =>
        decide (n.ntype = NType.element) && decide (∃ p ∈ n.attrs, p.1 = trimSpaceStr key)
    | (key, some v) =>
        decide (getAttr n (trimSpaceStr key) = trimQuotesStr (trimSpaceStr v))
  else
    decide (n.ntype = NType.element ∧ n.data = sel)

/-- Boolean any over a beq test is decided membership. -/
theorem any_beq_eq_decide_mem (l : List String) (s : String) :
    (l.any fun c => c == s) = decide (s ∈ l) := by
  induction l with
  | nil => simp
  | cons a l ih =>
      by_cases h : a = s
      · simp [List.any_cons, h]
      · have hsa : ¬s = a := fun hh => h hh.symm
        simp [List.any_cons, ih, beq_eq_false_iff_ne.mpr h, List.mem_cons, hsa]

/-- Boolean any over a first-component beq test is decided existence. -/
theorem any_fst_beq_eq_decide (l : List (String × String)) (k : String) :
    (l.any fun p => p.1 == k) = decide (∃ p ∈ l, p.1 = k) := by
  induction l with
  | nil => simp
  | cons a l ih =>
      by_cases h : a.1 = k
      · simp [List.any_cons, h]
      · simp [List.any_cons, ih, beq_eq_false_iff_ne.mpr h, h]

/-- The matchFunc closure of the source computes the predicate the amended
claim describes. -/
theorem matchFun_eq_specMatch (selector : String) (n : HNode) :
    matchFun selector n = specMatch selector n := by
  simp only [matchFun, specMatch]
  by_cases h1 : startsWithStr (trimSpaceStr selector) "." = true
  · simp only [h1, if_true]
    unfold hasClass
    by_cases he : n.ntype = NType.element
    · simp [he, any_beq_eq_decide_mem]
    · have hcl : getAttr n "class" = "" := by unfold getAttr; simp [he]
      simp [he, hcl, any_beq_eq_decide_mem, show fieldsStr "" = [] from rfl]
  · simp only [h1]
    by_cases h2 : startsWithStr (trimSpaceStr selector) "#" = true
    · simp only [h2, if_true, if_false]
      by_cases hq : getAttr n "id" = dropStr (trimSpaceStr selector) 1 <;> simp [hq]
    · simp only [h2]
      by_cases h3 : (startsWithStr (trimSpaceStr selector) "[" &&
          endsWithStr (trimSpaceStr selector) "]") = true
      · simp only [h3, if_true, if_false]
        cases hsplit : split2 '=' (innerStr (trimSpaceStr selector)) with
        | mk key rest =>
            cases rest with
            | none =>
                unfold hasAttr
                by_cases he : n.ntype = NType.element
                · simp [he, any_fst_beq_eq_decide]
                · simp [he]
            | some v =>
                by_cases hq : getAttr n (trimSpaceStr key) =
                    trimQuotesStr (trimSpaceStr v) <;> simp [hq]
      · simp only [h3, if_false]
        by_cases he : n.ntype = NType.element <;>
          by_cases hd : n.data = trimSpaceStr selector <;> simp [he, hd]

/-- Selector resolution, the claim read literally: no trimming of the
selector, an id or attribute-equality selector requires the attribute to be
present with the given value, and a tag selector compares the selector
string verbatim. -/
def claimMatch (selector : String) (n : HNode) : Bool :=
  if startsWithStr selector "." then
    decide (dropStr selector 1 ∈ fieldsStr (getAttr n "class"))
  else if startsWithStr selector "#" then
    decide (n.ntype = NType.element) &&
      decide ((n.attrs.find? (fun p => p.1 == "id")).map (fun p => p.2) =
        some (dropStr selector 1))
  else if startsWithStr selector "[" && endsWithStr selector "]" then
    match split2 '=' (innerStr selector) with
    | (key, none) =>
        decide (n.ntype = NType.element) && decide (∃ p ∈ n.attrs, p.1 = trimSpaceStr key)
    | (key, some v) =>
        decide (n.ntype = NType.element) &&
          decide ((n.attrs.find? (fun p => p.1 == trimSpaceStr key)).map (fun p => p.2) =
            some (trimQuotesStr (trimSpaceStr v)))
  else
    decide (n.ntype = NType.element ∧ n.data = selector)

/-- Node sets the claim predicts: the pre-order nodes accepted by the
literal claim predicate. -/
def claimFind (doc : HNode) (selector : String) : List HNode :=
  (preorder doc).filter (claimMatch selector)

/-- C7 counterexample: on a document that is a single div element, the
selector "div " (one trailing space) matches the element, because
findNodesBySelector trims the selector before comparing tag names, while
the claim, which compares the tag with the selector string verbatim,
predicts no match. -/
theorem c7_trailing_space_counterexample :
    findNodesBySelector (HNode.mk NType.element "div" [] []) "div " =
      [HNode.mk NType.element "div" [] []] ∧
    claimFind (HNode.mk NType.element "div" [] []) "div " = [] ∧
    [HNode.mk NType.element "div" [] []] ≠ ([] : List HNode) := by
  refine ⟨rfl, rfl, ?_⟩
  intro h
  exact absurd (congrArg List.length h) (by simp)

/-- C7 amended: findNodesBySelector lists the whole tree in pre-order, with
neither early exit nor skipped nodes, and keeps exactly the nodes accepted
by the four selector forms applied to the whitespace-trimmed selector, with
a missing attribute (or a non-element node) read as the empty string. -/
theorem findNodesBySelector_preorder_spec (doc : HNode) (selector : String) :
    findNodesBySelector doc selector = (preorder doc).filter (specMatch selector) := by
  unfold findNodesBySelector
  rw [walkCollect_eq_filter]
  exact List.filter_congr (fun n _ => matchFun_eq_specMatch selector n)

/-! ## The mutation engine (operations.go)

In-place pointer mutation becomes a tree rewrite.  The source collects the
matching node pointers first and then mutates each one; since every
selector predicate only inspects the node it is applied to, this equals a
single top-down rewrite in which a matched node is mutated, a mutation
that replaces the children (setText, setHTML) stops the descent into the
discarded subtree, and remove drops matched children at their parent (the
root, having no parent, is never dropped). -/

/-- Operation of models.go. -/
structure Operation where
  type : String
  selector : String
  value : String
  property : String
  priority : Int
deriving DecidableEq

/-- TransformSpec of models.go (the fields the mutation path reads). -/
structure TransformSpec where
  version : String
  experimentID : String
  variantID : String
  variantKey : String
  operations : List Operation

/-- External collaborators of the mutation engine: the HTML fragment parser
behind setHTML, and the iteration order Go chooses when ranging over the
style map of setStyle (Go leaves it unspecified and randomizes it, so it is
an oracle here; any permutation of the map entries is an admissible
behavior). -/
structure TransformEnv where
  parseFragment : String → Option (List HNode)
  styleOrder : List (String × String) → List (String × String)

/-- Update the first binding of a key in an association list, appending a
new binding when the key is absent: exactly the observable update of a Go
map entry, and also the in-place-or-append attribute update of
setAttr and setStyle in operations.go. -/
def upsertAssoc : List (String × String) → String → String → List (String × String)
  | [], k, v => [(k, v)]
  | (k', v') :: rest, k, v =>
      if k' = k then (k', v) :: rest else (k', v') :: upsertAssoc rest k v

/-- Delete a key from an association list (Go delete on the style map). -/
def eraseAssoc (l : List (String × String)) (k : String) : List (String × String) :=
  l.filter (fun p => !(p.1 == k))

/-- Parse of the existing style attribute in setStyle: split on ";", trim
each part, skip empties, split each part at the first ":" and keep only
two-sided parts, trimming key and value. -/
def parseStyles (s : String) : List (String × String) :=
  (splitChar ';' s).foldl
    (fun acc part =>
      let part := trimSpaceStr part
      if part = "" then acc
      else
        match split2 ':' part with
        | (_, none) => acc
        | (k, some v) => upsertAssoc acc (trimSpaceStr k) (trimSpaceStr v))
    []

/-- Rebuild of the style string in setStyle: entries joined as
key colon space value, separated by semicolon space. -/
def serializeStyles (l : List (String × String)) : String :=
  l.foldl
    (fun acc p =>
      if acc = "" then p.1 ++ ": " ++ p.2 else acc ++ "; " ++ p.1 ++ ": " ++ p.2)
    ""

/-- Model of setText in operations.go: detach all children, append one text
node holding the value. -/
def setText (n : HNode) (text : String) : HNode :=
  HNode.mk n.ntype n.data n.attrs [HNode.mk NType.textNode text [] []]

/-- Model of setStyle in operations.go: on elements only, parse the current
style attribute, delete the property when the value is empty and upsert it
otherwise, and write the rebuilt string back (updating the existing style
attribute in place, or appending one). -/
def setStyle (env : TransformEnv) (n : HNode) (property value : String) : HNode :=
  if n.ntype ≠ NType.element then n
  else
    let existing := ((n.attrs.find? (fun p => p.1 == "style")).map (fun p => p.2)).getD ""
    let styles := parseStyles existing
    let styles := if value = "" then eraseAssoc styles property else upsertAssoc styles property value
    let out := serializeStyles (env.styleOrder styles)
    HNode.mk n.ntype n.data (upsertAssoc n.attrs "style" out) n.children

/-- Model of setAttr in operations.go: on elements only, update the first
attribute with the key in place, or append a new one. -/
def setAttr (n : HNode) (key value : String) : HNode :=
  if n.ntype ≠ NType.element then n
  else HNode.mk n.ntype n.data (upsertAssoc n.attrs key value) n.children

/-- Model of setHTML in operations.go: detach all children, then parse the
fragment and append the resulting nodes; a failed parse leaves the node
childless. -/
def setHTML (env : TransformEnv) (n : HNode) (content : String) : HNode :=
  match env.parseFragment content with
  | none => HNode.mk n.ntype n.data n.attrs []
  | some ns => HNode.mk n.ntype n.data n.attrs ns

/-- Per-node switch of applyOperation for the node-local operation types. -/
def applyNodeMut (env : TransformEnv) (op : Operation) (n : HNode) : HNode :=
  if op.type = "setText" then setText n op.value
  else if op.type = "setStyle" then setStyle env n op.property op.value
  else if op.type = "setAttr" then setAttr n op.property op.value
  else if op.type = "setHTML" then setHTML env n op.value
  else if op.type = "hide" then setStyle env n "display" "none"
  else if op.type = "show" then setStyle env n "display" ""
  else n

/-- Operation types that replace the whole child list of a matched node. -/
def childReplacing (t : String) : Bool := t = "setText" || t = "setHTML"

/-- The seven operation types of the switch in applyOperation. -/
def knownOp (t : String) : Bool :=
  t = "setText" || t = "setStyle" || t = "setAttr" || t = "setHTML" ||
    t = "remove" || t = "hide" || t = "show"

mutual

/-- Tree rewrite of the remove operation: matched children are detached at
their parent; the node this is called on (the document root, which has no
parent) is never detached. -/
def removeMatching (m : HNode → Bool) : HNode → HNode
  | .mk t d a cs => HNode.mk t d a (removeMatchingList m cs)

/-- Child-list part of the remove rewrite. -/
def removeMatchingList (m : HNode → Bool) : List HNode → List HNode
  | [] => []
  | c :: cs =>
      (if m c then [] else [removeMatching m c]) ++ removeMatchingList m cs
end

mutual

/-- Tree rewrite of the node-local mutations: a matched node is mutated;
when the mutation replaces the children the discarded subtree is not
descended into (its nodes were detached before their own mutation could
matter), otherwise the original children are rewritten recursively. -/
def mutateMatching (env : TransformEnv) (op : Operation) (m : HNode → Bool) : HNode → HNode
  | .mk t d a cs =>
      if m (.mk t d a cs) then
        if childReplacing op.type then applyNodeMut env op (.mk t d a cs)
        else
          let n' := applyNodeMut env op (.mk t d a cs)
          HNode.mk n'.ntype n'.data n'.attrs (mutateMatchingList env op m cs)
      else HNode.mk t d a (mutateMatchingList env op m cs)

/-- Child-list part of the mutation rewrite. -/
def mutateMatchingList (env : TransformEnv) (op : Operation) (m : HNode → Bool) :
    List HNode → List HNode
  | [] => []
  | c :: cs => mutateMatching env op m c :: mutateMatchingList env op m cs
end

/-- Tree-level effect of one known operation. -/
def rewriteOp (env : TransformEnv) (op : Operation) (doc : HNode) : HNode :=
  if op.type = "remove" then removeMatching (matchFun op.selector) doc
  else mutateMatching env op (matchFun op.selector) doc

/-- Model of applyOperation in operations.go: an empty match set or an
unknown operation type is an error (raised before any mutation); otherwise
every matched node is mutated. -/
def applyOperation (env : TransformEnv) (doc : HNode) (op : Operation) : Except String HNode :=
  if (findNodesBySelector doc op.selector).isEmpty then
    Except.error ("no elements found for selector: " ++ op.selector)
  else if knownOp op.type then Except.ok (rewriteOp env op doc)
  else Except.error ("unknown operation type: " ++ op.type)

/-- One step of the batch loop in ApplyTransformations: a failed operation
is logged and the document is left as it was. -/
def applyOpsStep (env : TransformEnv) (d : HNode) (op : Operation) : HNode :=
  match applyOperation env d op with
  | Except.ok d' => d'
  | Except.error _ => d

/-- Model of ApplyTransformations in operations.go: fold the operations in
order, swallowing per-operation errors, and return nil. -/
def ApplyTransformations (env : TransformEnv) (doc : HNode) (ops : List Operation) :
    Except String HNode :=
  Except.ok (ops.foldl (applyOpsStep env) doc)

/-- A style map iteration order that emits the entries in insertion order:
one admissible behavior of ranging over the Go style map. -/
def envKeepOrder : TransformEnv := ⟨fun _ => none, id⟩

/-- A style map iteration order that emits the entries reversed: another
admissible behavior of ranging over the Go style map. -/
def envReverseOrder : TransformEnv := ⟨fun _ => none, List.reverse⟩

/-- Element carrying two style declarations, the failing input of C4. -/
def c4node : HNode :=
  HNode.mk NType.element "div" [("style", "color: red; background: blue")] []

/-- C4: the style attribute written by setStyle is not reproducible.  Both
iteration orders below are permutations of the style map entries, hence
admissible behaviors of the Go range statement that rebuilds the style
string, yet on the same node and the same arguments they produce different
style attribute strings; the serialization order is therefore not stable,
as section 9 of the design notes already flags. -/
theorem setStyle_serialization_not_reproducible :
    (∀ l : List (String × String), (envKeepOrder.styleOrder l).Perm l) ∧
    (∀ l : List (String × String), (envReverseOrder.styleOrder l).Perm l) ∧
    getAttr (setStyle envKeepOrder c4node "color" "red") "style" =
      "color: red; background: blue" ∧
    getAttr (setStyle envReverseOrder c4node "color" "red") "style" =
      "background: blue; color: red" ∧
    getAttr (setStyle envKeepOrder c4node "color" "red") "style" ≠
      getAttr (setStyle envReverseOrder c4node "color" "red") "style" :=
  ⟨fun l => List.Perm.refl l, fun l => List.reverse_perm l, rfl, rfl, by decide⟩

/-- Upserting the same binding twice is upserting it once. -/
theorem upsertAssoc_idem (l : List (String × String)) (k v : String) :
    upsertAssoc (upsertAssoc l k v) k v = upsertAssoc l k v := by
  induction l with
  | nil => simp [upsertAssoc]
  | cons p rest ih =>
      by_cases h : p.1 = k <;> simp [upsertAssoc, h, ih]

/-- Supporting fact for C4: setText is idempotent. -/
theorem setText_idem (n : HNode) (t : String) : setText (setText n t) t = setText n t := rfl

/-- Supporting fact for C4: setAttr is idempotent. -/
theorem setAttr_idem (n : HNode) (k v : String) :
    setAttr (setAttr n k v) k v = setAttr n k v := by
  cases n with
  | mk t d a cs =>
      by_cases ht : t = NType.element
      · simp [setAttr, HNode.ntype, ht, HNode.attrs, HNode.data, HNode.children, upsertAssoc_idem]
      · simp [setAttr, HNode.ntype, ht]

/-- Supporting fact for C4: with any one fixed iteration order, setStyle on
a node whose style map holds the single updated declaration is idempotent
and leaves exactly that one declaration — the non-reproducibility needs at
least two declarations. -/
theorem setStyle_single_declaration_idem :
    setStyle envKeepOrder (setStyle envKeepOrder (HNode.mk NType.element "div" [] [])
        "color" "red") "color" "red" =
      setStyle envKeepOrder (HNode.mk NType.element "div" [] []) "color" "red" ∧
    parseStyles (getAttr (setStyle envKeepOrder (HNode.mk NType.element "div" [] [])
      "color" "red") "style") = [("color", "red")] := ⟨rfl, rfl⟩

/-- Document for the C6 batch example: a div with one p child. -/
def c6doc : HNode :=
  HNode.mk NType.element "div" []
    [HNode.mk NType.element "p" [] [HNode.mk NType.textNode "hi" [] []]]

/-- C6: the batch loop applies operations strictly in list order and always
reports success; an operation whose selector matches nothing, or whose type
is unknown, is skipped without touching the document or aborting the rest;
and the concrete batch of one non-matching and one valid operation applies
the valid effect and reports no failure. -/
theorem applyTransformations_order_isolation :
    (∀ env doc ops, (ApplyTransformations env doc ops).isOk = true) ∧
    (∀ env doc op ops,
      ApplyTransformations env doc (op :: ops) =
        ApplyTransformations env (applyOpsStep env doc op) ops) ∧
    (∀ env doc op ops, findNodesBySelector doc op.selector = [] →
      ApplyTransformations env doc (op :: ops) = ApplyTransformations env doc ops) ∧
    (∀ env doc op ops, knownOp op.type = false →
      ApplyTransformations env doc (op :: ops) = ApplyTransformations env doc ops) ∧
    (∀ env,
      ApplyTransformations env c6doc
        [⟨"setText", ".missing", "X", "", 0⟩, ⟨"setText", "p", "Buy Now", "", 0⟩] =
      Except.ok (HNode.mk NType.element "div" []
        [HNode.mk NType.element "p" [] [HNode.mk NType.textNode "Buy Now" [] []]])) := by
  refine ⟨fun env doc ops => rfl, fun env doc op ops => rfl, ?_, ?_, fun env => rfl⟩
  · intro env doc op ops h
    simp [ApplyTransformations, applyOpsStep, applyOperation, h]
  · intro env doc op ops h
    by_cases he : (findNodesBySelector doc op.selector).isEmpty = true <;>
      simp [ApplyTransformations, applyOpsStep, applyOperation, he, h]

/-! ## SHA-256 and HMAC (the crypto/sha256 and crypto/hmac collaborators)

Bytes are Nat values below 256, 32-bit words are Nat values reduced
modulo 2^32 at every arithmetic step. -/

/-- Reduction to a 32-bit word. -/
def w32 (x : Nat) : Nat := x % 4294967296

/-- Right rotation of a 32-bit word. -/
def rotr32 (x n : Nat) : Nat := w32 ((x >>> n) ||| (x <<< (32 - n)))

/-- SHA-256 choose function. -/
def chF (x y z : Nat) : Nat := (x &&& y) ^^^ ((x ^^^ 4294967295) &&& z)

/-- SHA-256 majority function. -/
def majF (x y z : Nat) : Nat := (x &&& y) ^^^ (x &&& z) ^^^ (y &&& z)

/-- SHA-256 big sigma 0. -/
def bsig0 (x : Nat) : Nat := rotr32 x 2 ^^^ rotr32 x 13 ^^^ rotr32 x 22

/-- SHA-256 big sigma 1. -/
def bsig1 (x : Nat) : Nat := rotr32 x 6 ^^^ rotr32 x 11 ^^^ rotr32 x 25

/-- SHA-256 small sigma 0. -/
def ssig0 (x : Nat) : Nat := rotr32 x 7 ^^^ rotr32 x 18 ^^^ (x >>> 3)

/-- SHA-256 small sigma 1. -/
def ssig1 (x : Nat) : Nat := rotr32 x 17 ^^^ rotr32 x 19 ^^^ (x >>> 10)

/-- The 64 SHA-256 round constants. -/
def kconst : List Nat :=
  [1116352408, 1899447441, 3049323471, 3921009573, 961987163, 1508970993,
   2453635748, 2870763221, 3624381080, 310598401, 607225278, 1426881987,
   1925078388, 2162078206, 2614888103, 3248222580, 3835390401, 4022224774,
   264347078, 604807628, 770255983, 1249150122, 1555081692, 1996064986,
   2554220882, 2821834349, 2952996808, 3210313671, 3336571891, 3584528711,
   113926993, 338241895, 666307205, 773529912, 1294757372, 1396182291,
   1695183700, 1986661051, 2177026350, 2456956037, 2730485921, 2820302411,
   3259730800, 3345764771, 3516065817, 3600352804, 4094571909, 275423344,
   430227734, 506948616, 659060556, 883997877, 958139571, 1322822218,
   1537002063, 1747873779, 1955562222, 2024104815, 2227730452, 2361852424,
   2428436474, 2756734187, 3204031479, 3329325298]

/-- The eight-word SHA-256 working state. -/
structure Sha256State where
  a : Nat
  b : Nat
  c : Nat
  d : Nat
  e : Nat
  f : Nat
  g : Nat
  h : Nat

/-- The SHA-256 initial hash value. -/
def ivState : Sha256State :=
  ⟨1779033703, 3144134277, 1013904242, 2773480762, 1359893119, 2600822924, 528734635, 1541459225⟩

/-- One SHA-256 compression round. -/
def sha256Round (s : Sha256State) (k w : Nat) : Sha256State :=
  let t1 := w32 (s.h + bsig1 s.e + chF s.e s.f s.g + k + w)
  let t2 := w32 (bsig0 s.a + majF s.a s.b s.c)
  ⟨w32 (t1 + t2), s.a, s.b, s.c, w32 (s.d + t1), s.e, s.f, s.g⟩

/-- Big-endian 32-bit words of a byte list. -/
def bytesToWords : List Nat → List Nat
  | b0 :: b1 :: b2 :: b3 :: rest =>
      (b0 * 16777216 + b1 * 65536 + b2 * 256 + b3) :: bytesToWords rest
  | _ => []

/-- Extension of the 16 block words to the 64 schedule words. -/
def extendSchedule (w0 : List Nat) : List Nat :=
  (List.range 48).foldl
    (fun w _ =>
      let n := w.length
      w ++ [w32 (ssig1 (w.getD (n - 2) 0) + w.getD (n - 7) 0 +
        ssig0 (w.getD (n - 15) 0) + w.getD (n - 16) 0)])
    w0

/-- SHA-256 compression of one 64-byte block into the running state. -/
def compress (st : Sha256State) (block : List Nat) : Sha256State :=
  let ws := extendSchedule (bytesToWords block)
  let fin := (List.zip kconst ws).foldl (fun s p => sha256Round s p.1 p.2) st
  ⟨w32 (st.a + fin.a), w32 (st.b + fin.b), w32 (st.c + fin.c), w32 (st.d + fin.d),
   w32 (st.e + fin.e), w32 (st.f + fin.f), w32 (st.g + fin.g), w32 (st.h + fin.h)⟩

/-- Big-endian 8-byte serialization of a 64-bit length field. -/
def u64be (x : Nat) : List Nat :=
  [(x >>> 56) % 256, (x >>> 48) % 256, (x >>> 40) % 256, (x >>> 32) % 256,
   (x >>> 24) % 256, (x >>> 16) % 256, (x >>> 8) % 256, x % 256]

/-- Big-endian 4-byte serialization of a 32-bit word. -/
def u32be (x : Nat) : List Nat := [(x >>> 24) % 256, (x >>> 16) % 256, (x >>> 8) % 256, x % 256]

/-- SHA-256 padding: the 0x80 byte, zeros to 56 mod 64, and the bit length. -/
def padMsg (msg : List Nat) : List Nat :=
  msg ++ [128] ++ List.replicate ((64 - ((msg.length + 9) % 64)) % 64) 0 ++ u64be (8 * msg.length)

/-- Split into 64-byte blocks, with the list length as fuel. -/
def chunks64Aux : Nat → List Nat → List (List Nat)
  | 0, _ => []
  | _, [] => []
  | fuel + 1, l => l.take 64 :: chunks64Aux fuel (l.drop 64)

/-- The 64-byte blocks of a byte list. -/
def chunks64 (l : List Nat) : List (List Nat) := chunks64Aux l.length l

/-- Serialization of the final state to the 32 digest bytes. -/
def digestBytes (s : Sha256State) : List Nat :=
  u32be s.a ++ u32be s.b ++ u32be s.c ++ u32be s.d ++
    u32be s.e ++ u32be s.f ++ u32be s.g ++ u32be s.h

/-- SHA-256 of a byte list. -/
def sha256 (msg : List Nat) : List Nat :=
  digestBytes ((chunks64 (padMsg msg)).foldl compress ivState)

/-- HMAC-SHA256 (crypto/hmac over crypto/sha256, block size 64). -/
def hmacSha256 (key msg : List Nat) : List Nat :=
  let k := if 64 < key.length then sha256 key else key
  let k0 := k ++ List.replicate (64 - k.length) 0
  sha256 ((k0.map (fun b => b ^^^ 92)) ++ sha256 ((k0.map (fun b => b ^^^ 54)) ++ msg))

/-- UTF-8 encoding of one character (Go byte-slice conversion of a string). -/
def utf8Char (c : Char) : List Nat :=
  let n := c.toNat
  if n < 128 then [n]
  else if n < 2048 then [192 + n / 64, 128 + n % 64]
  else if n < 65536 then [224 + n / 4096, 128 + (n / 64) % 64, 128 + n % 64]
  else [240 + n / 262144, 128 + (n / 4096) % 64, 128 + (n / 64) % 64, 128 + n % 64]

/-- UTF-8 bytes of a string. -/
def utf8Bytes (s : String) : List Nat := s.data.flatMap utf8Char

/-- Lowercase hex digit of a value below 16. -/
def hexDigitChar (n : Nat) : Char :=
  if n < 10 then Char.ofNat (48 + n) else if n < 16 then Char.ofNat (87 + n) else Char.ofNat 48

/-- Model of hex.EncodeToString: two lowercase hex digits per byte. -/
def hexEncode (bs : List Nat) : List Char :=
  bs.foldr (fun b acc => hexDigitChar (b / 16) :: hexDigitChar (b % 16) :: acc) []

/-- Hex digit value of a character as strconv recognizes it for base 16:
decimal digits, lowercase a to f, uppercase A to F. -/
def hexCharVal (c : Char) : Option Nat :=
  let n := c.toNat
  if 48 ≤ n ∧ n ≤ 57 then some (n - 48)
  else if 97 ≤ n ∧ n ≤ 102 then some (n - 87)
  else if 65 ≤ n ∧ n ≤ 70 then some (n - 55)
  else none

/-- Positional value of a hex string, unrecognized characters counting 0. -/
def hexNatValueAux : Nat → List Char → Nat
  | acc, [] => acc
  | acc, c :: cs => hexNatValueAux (acc * 16 + (hexCharVal c).getD 0) cs

/-- Positional value of a hex string. -/
def hexNatValue (cs : List Char) : Nat := hexNatValueAux 0 cs

/-- Every character is a recognized hex digit. -/
def allHex (cs : List Char) : Bool := cs.all (fun c => (hexCharVal c).isSome)

/-- Model of strconv.ParseUint(s, 16, 64): Go scans the digits and reports
a syntax error on an empty string or a non-hex character and a range error
as soon as the accumulated value leaves the 64-bit range; because the
accumulated value grows monotonically, that is exactly failure unless every
character is a hex digit and the total value is below 2^64. -/
def parseHexU64 (cs : List Char) : Option Nat :=
  if cs.isEmpty then none
  else if allHex cs then
    if hexNatValue cs < 18446744073709551616 then some (hexNatValue cs) else none
  else none

/-! ## IEEE-754 binary64 arithmetic (the float64 type of Go)

Go float64 follows IEEE-754 binary64 with round-to-nearest-even.  A value
is either finite (carried as the exact rational it denotes), an infinity,
or NaN; the two signed zeros are conflated, which is sound here because
for the additions, the multiplications by 100 and the order comparisons of
the assignment walk the two zeros behave identically. -/

/-- A float64 value. -/
inductive F64 where
  | finite (val : ℚ)
  | inf
  | ninf
  | nan
deriving DecidableEq

/-- Floor of the base-2 logarithm of a natural number, with the number
itself as recursion fuel. -/
def ilog2Aux : Nat → Nat → Nat
  | 0, _ => 0
  | _, 0 => 0
  | fuel + 1, n => if n ≤ 1 then 0 else ilog2Aux fuel (n / 2) + 1

/-- Floor of the base-2 logarithm. -/
def ilog2 (n : Nat) : Nat := ilog2Aux n n

/-! Mathlib's ℚ addition, multiplication and negation are marked
irreducible, which stops kernel evaluation; the rounding algorithm
therefore computes with the following executable operations, proved equal
to the Mathlib ones just below. -/

/-- Executable rational addition. -/
def qadd (a b : ℚ) : ℚ := mkRat (a.num * b.den + b.num * a.den) (a.den * b.den)

/-- Executable rational multiplication. -/
def qmul (a b : ℚ) : ℚ := mkRat (a.num * b.num) (a.den * b.den)

/-- Executable rational negation. -/
def qneg (a : ℚ) : ℚ := mkRat (-a.num) a.den

/-- Executable rational subtraction. -/
def qsub (a b : ℚ) : ℚ := qadd a (qneg b)

/-- Executable embedding of an integer. -/
def intToQ (n : ℤ) : ℚ := mkRat n 1

/-- The rational 2 to an integer power. -/
def pow2z : ℤ → ℚ
  | Int.ofNat n => mkRat ((2 ^ n : ℕ) : ℤ) 1
  | Int.negSucc n => mkRat 1 (2 ^ (n + 1))

/-- Floor of the base-2 logarithm of a positive rational. -/
def qlog2floor (a : ℚ) : ℤ :=
  let ln : ℤ := ilog2 a.num.toNat
  let ld : ℤ := ilog2 a.den
  let k0 := ln - ld
  if a < pow2z k0 then k0 - 1 else if pow2z (k0 + 1) ≤ a then k0 + 1 else k0

/-- Floor of a positive rational. -/
def qfloorPos (q : ℚ) : ℤ := q.num / (q.den : ℤ)

/-- Round an exact rational to the nearest binary64 value, ties to even:
scale so that the significand window holds 53 bits (or the subnormal
window at exponent -1074), round the scaled significand, and overflow to
infinity at 2^1024 as IEEE-754 prescribes for round-to-nearest. -/
def roundQ (q : ℚ) : F64 :=
  if q = 0 then F64.finite 0
  else
    let neg := q < 0
    let a := if neg then qneg q else q
    let k := qlog2floor a
    let e : ℤ := max (k - 52) (-1074)
    let scaled := qmul a (pow2z (-e))
    let m0 := qfloorPos scaled
    let fr := qsub scaled (intToQ m0)
    let m : ℤ :=
      if mkRat 1 2 < fr then m0 + 1
      else if fr < mkRat 1 2 then m0
      else if m0 % 2 = 0 then m0 else m0 + 1
    let v : ℚ := qmul (intToQ m) (pow2z e)
    if pow2z 1024 ≤ v then (if neg then F64.ninf else F64.inf)
    else F64.finite (if neg then qneg v else v)

/-- IEEE-754 binary64 addition. -/
def fadd : F64 → F64 → F64
  | F64.nan, _ => F64.nan
  | _, F64.nan => F64.nan
  | F64.inf, F64.ninf => F64.nan
  | F64.ninf, F64.inf => F64.nan
  | F64.inf, _ => F64.inf
  | _, F64.inf => F64.inf
  | F64.ninf, _ => F64.ninf
  | _, F64.ninf => F64.ninf
  | F64.finite a, F64.finite b => roundQ (qadd a b)

/-- IEEE-754 binary64 multiplication. -/
def fmul : F64 → F64 → F64
  | F64.nan, _ => F64.nan
  | _, F64.nan => F64.nan
  | F64.inf, F64.inf => F64.inf
  | F64.inf, F64.ninf => F64.ninf
  | F64.ninf, F64.inf => F64.ninf
  | F64.ninf, F64.ninf => F64.inf
  | F64.inf, F64.finite b =>
      if b = 0 then F64.nan else if 0 < b then F64.inf else F64.ninf
  | F64.finite a, F64.inf =>
      if a = 0 then F64.nan else if 0 < a then F64.inf else F64.ninf
  | F64.ninf, F64.finite b =>
      if b = 0 then F64.nan else if 0 < b then F64.ninf else F64.inf
  | F64.finite a, F64.ninf =>
      if a = 0 then F64.nan else if 0 < a then F64.ninf else F64.inf
  | F64.finite a, F64.finite b => roundQ (qmul a b)

/-- IEEE-754 binary64 strict order: false on NaN operands. -/
def flt : F64 → F64 → Bool
  | F64.nan, _ => false
  | _, F64.nan => false
  | F64.ninf, F64.ninf => false
  | F64.ninf, _ => true
  | _, F64.ninf => false
  | F64.inf, _ => false
  | F64.finite _, F64.inf => true
  | F64.finite a, F64.finite b => a < b

/-- The exact rational a finite float64 denotes (0 for the non-finite
values; used only by the claim-side exact reading). -/
def F64.toRat : F64 → ℚ
  | F64.finite q => q
  | _ => 0

/-- The float64 constant 100. -/
def f100 : F64 := F64.finite 100

/-- Executable addition is rational addition. -/
theorem qadd_eq (a b : ℚ) : qadd a b = a + b := by
  have za : (a.den : ℤ) ≠ 0 := by exact_mod_cast a.den_nz
  have zb : (b.den : ℤ) ≠ 0 := by exact_mod_cast b.den_nz
  rw [qadd, Rat.mkRat_eq_divInt]
  conv_rhs => rw [← Rat.divInt_self a, ← Rat.divInt_self b]
  rw [Rat.divInt_add_divInt _ _ za zb, Nat.cast_mul]

/-- Executable multiplication is rational multiplication. -/
theorem qmul_eq (a b : ℚ) : qmul a b = a * b := by
  rw [qmul, Rat.mkRat_eq_divInt]
  conv_rhs => rw [← Rat.divInt_self a, ← Rat.divInt_self b]
  rw [Rat.divInt_mul_divInt', Nat.cast_mul]

/-- Executable negation is rational negation. -/
theorem qneg_eq (a : ℚ) : qneg a = -a := by
  rw [qneg, ← Rat.neg_mkRat, Rat.mkRat_self]

/-- Executable subtraction is rational subtraction. -/
theorem qsub_eq (a b : ℚ) : qsub a b = a - b := by
  rw [qsub, qadd_eq, qneg_eq, sub_eq_add_neg]

/-- Executable integer embedding is the integer cast. -/
theorem intToQ_eq (n : ℤ) : intToQ n = (n : ℚ) := by
  rw [intToQ, Rat.mkRat_one]

set_option maxRecDepth 20000 in
/-- Validation of the binary64 model: rounding the exact decimals 0.01 and
0.99, the binary64 sum of the doubles nearest 0.1 and 0.2, the binary64
product of the double nearest 0.01 with 100, the binary64 sum of the
doubles nearest 0.01 and 0.99, and the tie-to-even rounding of 2^53 + 1
all agree with IEEE-754 arithmetic (the well-known
5764607523034235 * 2^-59, 4458563631096791 * 2^-52 and
0.30000000000000004 values, the products and sums rounding back to
exactly 1, and 9007199254740993 rounding to the even 9007199254740992). -/
theorem binary64_model_vectors :
    roundQ (mkRat 1 100) = F64.finite (mkRat 5764607523034235 576460752303423488) ∧
    roundQ (mkRat 99 100) = F64.finite (mkRat 4458563631096791 4503599627370496) ∧
    fadd (roundQ (mkRat 1 10)) (roundQ (mkRat 2 10)) =
      F64.finite (mkRat 1351079888211149 4503599627370496) ∧
    fmul (F64.finite (mkRat 5764607523034235 576460752303423488)) f100 = F64.finite 1 ∧
    fadd (F64.finite (mkRat 5764607523034235 576460752303423488))
      (F64.finite (mkRat 4458563631096791 4503599627370496)) = F64.finite 1 ∧
    roundQ (mkRat 9007199254740993 1) = F64.finite (mkRat 9007199254740992 1) := by
  refine ⟨?_, ?_, ?_, ?_, ?_, ?_⟩ <;> decide

/-! ## The variant assignment engine (internal/variant) -/

/-- Variant of models.go; the float64 traffic allocation is embedded as an
IEEE-754 binary64 value. -/
structure Variant where
  id : String
  name : String
  isControl : Bool
  trafficAllocation : F64
deriving DecidableEq

/-- Assigner of assigner.go. -/
structure Assigner where
  salt : String
deriving DecidableEq

/-- Model of NewAssigner in assigner.go: an empty salt is replaced by the
hardcoded default. -/
def NewAssigner (salt : String) : Assigner :=
  if salt = "" then ⟨"default-salt-change-in-production"⟩ else ⟨salt⟩

/-- Assigner the middleware constructs in NewExperiFlowMiddleware: the salt
is the hardcoded string "production-salt", not configuration. -/
def middlewareAssigner : Assigner := NewAssigner "production-salt"

/-- Model of getBucket in assigner.go: hex HMAC-SHA256 of
userID:experimentID keyed by the salt, first 8 hex characters parsed as an
unsigned 64-bit integer, reduced mod 100; should the parse fail, the code
falls back to rand.Intn(100), modelled by the randBucket oracle. -/
def getBucket (randBucket : Nat) (salt userID experimentID : String) : Nat :=
  let hash := hexEncode (hmacSha256 (utf8Bytes salt) (utf8Bytes (userID ++ ":" ++ experimentID)))
  match parseHexU64 (hash.take 8) with
  | some v => v % 100
  | none => randBucket % 100

/-- Cumulative walk of AssignVariant in assigner.go: the running float64
sum of the allocations, the bucket compared against the float64 product of
the running sum with 100 at each step. -/
def assignWalk (bucket : F64) : F64 → List Variant → Option Variant
  | _, [] => none
  | c, v :: rest =>
      let cNew := fadd c v.trafficAllocation
      if flt bucket (fmul cNew f100) then some v else assignWalk bucket cNew rest

/-- Model of AssignVariant in assigner.go; the conversion float64(bucket)
is exact because the bucket is below 100. -/
def AssignVariant (randBucket : Nat) (a : Assigner) (userID experimentID : String)
    (variants : List Variant) : Option Variant :=
  if variants.isEmpty then none
  else if variants.length = 1 then variants.head?
  else
    let bucket : F64 := F64.finite (intToQ (getBucket randBucket a.salt userID experimentID : ℤ))
    match assignWalk bucket (F64.finite 0) variants with
    | some v => some v
    | none => variants.head?

/-- Model of GetUserID in assigner.go: cookie value first, else the first
16 hex characters of SHA-256 of ip:userAgent, else a random anonymous
token from the randAnon oracle. -/
def GetUserID (randAnon : Nat) (cookieValue ipAddress userAgent : String) : String :=
  if cookieValue ≠ "" then cookieValue
  else if ipAddress ≠ "" ∨ userAgent ≠ "" then
    String.mk ((hexEncode (sha256 (utf8Bytes (ipAddress ++ ":" ++ userAgent)))).take 16)
  else "anon_" ++ toString (randAnon % 1000000)

/-! ## Claim-side restatement of the assignment algorithm -/

/-- Bucket as the claim words it: the first 8 hex characters of the hex
HMAC-SHA256 digest of userID:experimentID keyed by the salt, parsed as an
unsigned integer, mod 100. -/
def specBucket (salt userID experimentID : String) : Nat :=
  hexNatValue ((hexEncode (hmacSha256 (utf8Bytes salt)
    (utf8Bytes (userID ++ ":" ++ experimentID)))).take 8) % 100

/-- Cumulative walk as the original claim words it, read over the exact
rational values the stored float64 allocations denote: accumulate the
allocation scaled by 100 and return the first variant whose threshold
exceeds the bucket.  The claim states no rounding, so the arithmetic here
is exact. -/
def specWalk (bucket : ℚ) : ℚ → List Variant → Option Variant
  | _, [] => none
  | c, v :: rest =>
      let cNew := qadd c (qmul v.trafficAllocation.toRat (intToQ 100))
      if bucket < cNew then some v else specWalk bucket cNew rest

/-- Assignment as the original claim words it: no assignment on an empty
list, the sole variant of a singleton list, otherwise the exact cumulative
walk from zero with the first variant as fallback. -/
def assignVariantSpec (salt userID experimentID : String) (variants : List Variant) :
    Option Variant :=
  match variants with
  | [] => none
  | [v] => some v
  | _ =>
      let bucket : ℚ := intToQ (specBucket salt userID experimentID : ℤ)
      match specWalk bucket 0 variants with
      | some v => some v
      | none => variants.head?

/-- The step of the exact claim-side walk, in ordinary rational
arithmetic: the executable operations compute exactly
c + trafficAllocation * 100. -/
theorem specWalk_step (bucket c : ℚ) (v : Variant) (rest : List Variant) :
    specWalk bucket c (v :: rest) =
      if bucket < c + v.trafficAllocation.toRat * 100 then some v
      else specWalk bucket (c + v.trafficAllocation.toRat * 100) rest := by
  have h100 : intToQ 100 = (100 : ℚ) := by rw [intToQ_eq]; norm_num
  simp only [specWalk, qadd_eq, qmul_eq, h100]

/-- Cumulative walk as the amended claim words it: the running sum
accumulated in binary64 and the bucket compared against the binary64
product of the running sum with 100. -/
def specWalkF (bucket : F64) : F64 → List Variant → Option Variant
  | _, [] => none
  | c, v :: rest =>
      let cNew := fadd c v.trafficAllocation
      if flt bucket (fmul cNew f100) then some v else specWalkF bucket cNew rest

/-- Assignment as the amended claim words it: no assignment on an empty
list, the sole variant of a singleton list, otherwise the binary64
cumulative walk from zero with the first variant as fallback, the bucket
being the parsed digest slice mod 100. -/
def assignVariantSpecF (salt userID experimentID : String) (variants : List Variant) :
    Option Variant :=
  match variants with
  | [] => none
  | [v] => some v
  | _ =>
      let bucket : F64 := F64.finite (intToQ (specBucket salt userID experimentID : ℤ))
      match specWalkF bucket (F64.finite 0) variants with
      | some v => some v
      | none => variants.head?

/-! ## Soundness of the bucket computation -/

/-- Digest length of the SHA-256 model. -/
theorem sha256_length (msg : List Nat) : (sha256 msg).length = 32 := by
  simp [sha256, digestBytes, u32be]

/-- Digest length of the HMAC model. -/
theorem hmacSha256_length (key msg : List Nat) : (hmacSha256 key msg).length = 32 := by
  simp only [hmacSha256]
  exact sha256_length _

/-- Length of the hex encoding. -/
theorem hexEncode_length (bs : List Nat) : (hexEncode bs).length = 2 * bs.length := by
  induction bs with
  | nil => rfl
  | cons b bs ih => simp [hexEncode] at ih ⊢; omega

/-- Every character the hex encoder emits is a recognized hex digit. -/
theorem hexCharVal_hexDigitChar (n : Nat) : (hexCharVal (hexDigitChar n)).isSome = true := by
  rcases Nat.lt_or_ge n 16 with h | h
  · interval_cases n <;> decide
  · have h10 : ¬n < 10 := by omega
    have h16 : ¬n < 16 := by omega
    simp only [hexDigitChar, h10, h16, if_false]
    decide

/-- Membership in the hex encoding gives a recognized hex digit. -/
theorem mem_hexEncode_isHex (bs : List Nat) (c : Char) (hc : c ∈ hexEncode bs) :
    (hexCharVal c).isSome = true := by
  induction bs with
  | nil => simp [hexEncode] at hc
  | cons b bs ih =>
      simp only [hexEncode, List.foldr_cons, List.mem_cons] at hc
      rcases hc with hc | hc | hc
      · exact hc ▸ hexCharVal_hexDigitChar _
      · exact hc ▸ hexCharVal_hexDigitChar _
      · exact ih hc

/-- The recognized digit value of any character is below 16. -/
theorem hexCharVal_getD_lt (c : Char) : (hexCharVal c).getD 0 < 16 := by
  simp only [hexCharVal]
  split_ifs with h1 h2 h3 <;> simp <;> omega

/-- Bound on the positional hex value. -/
theorem hexNatValueAux_lt (cs : List Char) : ∀ acc, hexNatValueAux acc cs < (acc + 1) * 16 ^ cs.length := by
  induction cs with
  | nil => intro acc; simp [hexNatValueAux]
  | cons c cs ih =>
      intro acc
      have hd := hexCharVal_getD_lt c
      have step := ih (acc * 16 + (hexCharVal c).getD 0)
      have hfac : (acc * 16 + (hexCharVal c).getD 0 + 1) ≤ (acc + 1) * 16 := by omega
      calc hexNatValueAux acc (c :: cs)
          = hexNatValueAux (acc * 16 + (hexCharVal c).getD 0) cs := rfl
        _ < (acc * 16 + (hexCharVal c).getD 0 + 1) * 16 ^ cs.length := step
        _ ≤ ((acc + 1) * 16) * 16 ^ cs.length := Nat.mul_le_mul_right _ hfac
        _ = (acc + 1) * 16 ^ (c :: cs).length := by
            rw [List.length_cons, pow_succ]
            ring

/-- The 8-character bucket slice always parses: it is nonempty, all hex,
and its value fits 64 bits, so the random fallback of getBucket is dead
code and the bucket is the deterministic positional value mod 100. -/
theorem getBucket_eq_specBucket (randBucket : Nat) (salt userID experimentID : String) :
    getBucket randBucket salt userID experimentID = specBucket salt userID experimentID := by
  unfold getBucket specBucket
  set hx := hexEncode (hmacSha256 (utf8Bytes salt)
    (utf8Bytes (userID ++ ":" ++ experimentID))) with hhx
  have hlen : hx.length = 64 := by
    rw [hhx, hexEncode_length, hmacSha256_length]
  have htlen : (hx.take 8).length = 8 := by
    rw [List.length_take, hlen]
    omega
  have hne : (hx.take 8).isEmpty = false := by
    cases h : hx.take 8 with
    | nil => rw [h] at htlen; simp at htlen
    | cons a l => simp [h]
  have hall : allHex (hx.take 8) = true := by
    rw [allHex, List.all_eq_true]
    intro c hc
    exact mem_hexEncode_isHex _ c (hhx ▸ List.take_subset 8 hx hc)
  have hbound : hexNatValue (hx.take 8) < 18446744073709551616 := by
    have := hexNatValueAux_lt (hx.take 8) 0
    rw [htlen] at this
    simpa [hexNatValue] using this.trans_le (by norm_num)
  simp [parseHexU64, hne, hall, hbound]

/-- The source walk computes the amended claim walk. -/
theorem assignWalk_eq_specWalkF (bucket : F64) (vs : List Variant) :
    ∀ c, assignWalk bucket c vs = specWalkF bucket c vs := by
  induction vs with
  | nil => intro c; rfl
  | cons v rest ih =>
      intro c
      simp only [assignWalk, specWalkF, ih (fadd c v.trafficAllocation)]

/-- The double nearest the decimal 0.01, as an exact rational. -/
def q001 : ℚ := mkRat 5764607523034235 576460752303423488

/-- The double nearest the decimal 0.99, as an exact rational. -/
def q099 : ℚ := mkRat 4458563631096791 4503599627370496

/-- First variant of the C1 counterexample, with allocation float64 0.01. -/
def c1variantA : Variant := ⟨"A", "variant-a", false, F64.finite q001⟩

/-- Second variant of the C1 counterexample, with allocation float64 0.99. -/
def c1variantB : Variant := ⟨"B", "variant-b", true, F64.finite q099⟩

set_option maxRecDepth 100000 in
/-- C1 counterexample: with salt s, userID user-39 and experimentID exp-1
the bucket is 1, and on the two variants with float64 allocations 0.01 and
0.99 the code returns the second variant — the float64 product of the
running sum float64(0.01) with 100 rounds back down to exactly 1.0, so the
first threshold test 1 < 1.0 fails — while the claimed walk, whose per-step
exact scaling gives the first threshold 1.0000000000000000208…, is passed
by bucket 1 at the first variant.  The claimed algorithm therefore assigns
a different variant than the program at this input. -/
theorem c1_float_walk_counterexample :
    getBucket 0 "s" "user-39" "exp-1" = 1 ∧
    AssignVariant 0 (Assigner.mk "s") "user-39" "exp-1" [c1variantA, c1variantB] =
      some c1variantB ∧
    assignVariantSpec "s" "user-39" "exp-1" [c1variantA, c1variantB] = some c1variantA ∧
    some c1variantA ≠ some c1variantB := by
  refine ⟨?_, ?_, ?_, ?_⟩ <;> decide

/-- C1 amended: AssignVariant computes the claimed algorithm with the walk
arithmetic read as the code performs it in IEEE-754 binary64 — the running
sum accumulates cumulative += trafficAllocation and the test is
bucket < cumulative*100, both operations rounding to nearest — empty list
no assignment, singleton unconditional, first variant as fallback, the
bucket as claimed; and it is deterministic: the random oracle never
influences the result. -/
theorem assignVariant_amended_spec (r rOther : Nat) (a : Assigner) (userID experimentID : String)
    (variants : List Variant) :
    AssignVariant r a userID experimentID variants =
      assignVariantSpecF a.salt userID experimentID variants ∧
    AssignVariant r a userID experimentID variants =
      AssignVariant rOther a userID experimentID variants := by
  have main : ∀ rr, AssignVariant rr a userID experimentID variants =
      assignVariantSpecF a.salt userID experimentID variants := by
    intro rr
    match variants with
    | [] => rfl
    | [v] => rfl
    | v1 :: v2 :: rest =>
        unfold AssignVariant assignVariantSpecF
        rw [getBucket_eq_specBucket]
        have hw := assignWalk_eq_specWalkF
          (F64.finite (intToQ (specBucket a.salt userID experimentID : ℤ)))
          (v1 :: v2 :: rest) (F64.finite 0)
        simp [hw]
  exact ⟨main r, (main r).trans (main rOther).symm⟩

/-- C5: constructing the assigner with an empty salt silently substitutes
the hardcoded default salt instead of failing, and the middleware itself
hardcodes the salt "production-salt" rather than drawing it from required
configuration. -/
theorem newAssigner_empty_salt_uses_default :
    NewAssigner "" = Assigner.mk "default-salt-change-in-production" ∧
    (NewAssigner "").salt ≠ "" ∧
    middlewareAssigner.salt = "production-salt" :=
  ⟨rfl, by decide, rfl⟩

set_option maxRecDepth 10000 in
/-- Validation of the SHA-256 embedding on the FIPS 180-4 test vector. -/
theorem sha256_abc_vector :
    String.mk (hexEncode (sha256 (utf8Bytes "abc"))) =
      "ba7816bf8f01cfea414140de5dae2223b00361a396177a9cb410ff61f20015ad" := by
  decide

set_option maxRecDepth 20000 in
/-- Validation of the HMAC embedding on RFC 4231 test case 2. -/
theorem hmacSha256_rfc4231_vector :
    String.mk (hexEncode (hmacSha256 (utf8Bytes "Jefe")
        (utf8Bytes "what do ya want for nothing?"))) =
      "5bdcc146bf60754e6a042426089575c75a003f089d2739839dec58b964ec3843" := by
  decide

/-! ## The orchestrator (internal/middleware/experiflow.go)

One inbound request with one origin response; the two outbound API calls
of one experiment attempt are oracle results in an environment, the HTML
parser and renderer are oracle functions, the clock and the PRNG are
oracle values.  The Go code mutates the http.Response in place and
returns an error value; the embedding passes the response state
explicitly and pairs it with the optional error. -/

/-- Configuration fields the orchestrator reads. -/
structure Config where
  failOpen : Bool
  enableLogging : Bool
deriving DecidableEq

/-- Inbound request data the orchestrator reads. -/
structure Req where
  cookies : List (String × String)
  remoteAddr : String
  userAgent : String
deriving DecidableEq

/-- Response state: header list and body bytes (as a string). -/
structure Resp where
  headers : List (String × String)
  body : String
deriving DecidableEq

/-- Failure of an outbound API call: a deadline expiry or any other
failure (network error, non-200 status, decode error); the middleware
never distinguishes the two. -/
inductive FetchErr where
  | timeoutErr
  | otherErr
deriving DecidableEq

/-- Oracle environment of one experiment attempt: the results of the two
API calls, the HTML parse and render collaborators, the mutation engine
collaborators, the elapsed-time reading and the PRNG draws. -/
structure ExpEnv where
  variantsResult : Except FetchErr (List Variant)
  specResult : Except FetchErr TransformSpec
  parseHTML : String → Option HNode
  renderHTML : HNode → Option String
  tenv : TransformEnv
  elapsedMs : Int
  randBucket : Nat
  randAnon : Nat

/-- First value of a header key, empty when absent (Go http.Header.Get). -/
def headerGet (hs : List (String × String)) (k : String) : String :=
  ((hs.find? (fun p => p.1 == k)).map (fun p => p.2)).getD ""

/-- Replace all values of a header key (Go http.Header.Set). -/
def headerSet (hs : List (String × String)) (k v : String) : List (String × String) :=
  hs.filter (fun p => !(p.1 == k)) ++ [(k, v)]

/-- Append a value to a header key (Go http.Header.Add). -/
def headerAdd (hs : List (String × String)) (k v : String) : List (String × String) :=
  hs ++ [(k, v)]

/-- Serialization of the assignment cookie the middleware builds: 30-day
max age, path root, HttpOnly, SameSite Lax (net/http Cookie.String order). -/
def cookieString (name value : String) : String :=
  name ++ "=" ++ value ++ "; Path=/; Max-Age=2592000; HttpOnly; SameSite=Lax"

/-- Fresh-assignment path of getOrAssignVariant: fetch the variants, fail
to a blank triple on fetch error or an empty list, otherwise derive the
user identity and run AssignVariant. -/
def assignFreshVariant (a : Assigner) (env : ExpEnv) (req : Req) (experimentID : String) :
    String × String × Bool :=
  match env.variantsResult with
  | Except.error _ => ("", "", false)
  | Except.ok variants =>
      if variants.isEmpty then ("", "", false)
      else
        match AssignVariant env.randBucket a
            (GetUserID env.randAnon "" req.remoteAddr req.userAgent) experimentID variants with
        | none => ("", "", false)
        | some v => (v.id, v.name, true)

/-- Model of getOrAssignVariant in experiflow.go: a present, non-empty
assignment cookie short-circuits to its value with an empty variant key
and no new assignment; otherwise a fresh assignment is attempted. -/
def getOrAssignVariant (a : Assigner) (env : ExpEnv) (req : Req)
    (experimentID cookieName : String) : String × String × Bool :=
  match req.cookies.lookup cookieName with
  | some v => if v ≠ "" then (v, "", false) else assignFreshVariant a env req experimentID
  | none => assignFreshVariant a env req experimentID

/-- Cookie write of a fresh assignment: Set when no Set-Cookie value is
present, Add otherwise. -/
def addSetCookie (resp : Resp) (c : String) : Resp :=
  if headerGet resp.headers "Set-Cookie" = "" then
    { resp with headers := headerSet resp.headers "Set-Cookie" c }
  else
    { resp with headers := headerAdd resp.headers "Set-Cookie" c }

/-- Model of addHeaders in experiflow.go: the four observability headers. -/
def addHeaders (resp : Resp) (experimentID variantKey status : String) (elapsedMs : Int) : Resp :=
  let h1 := headerSet resp.headers "X-EF-Experiment" experimentID
  let h2 := headerSet h1 "X-EF-Variant" variantKey
  let h3 := headerSet h2 "X-EF-Transform" status
  let h4 := headerSet h3 "X-EF-Timing" ("total=" ++ toString elapsedMs ++ "ms")
  { resp with headers := h4 }

/-- Error text of a failed transform-spec fetch as wrapped by the source. -/
def specFetchErrMsg : FetchErr → String
  | FetchErr.timeoutErr => "fetch transform spec: context deadline exceeded"
  | FetchErr.otherErr => "fetch transform spec: request failed"

/-- Model of applyExperiment in experiflow.go: resolve the variant (error
when blank), write the cookie on a fresh assignment, fetch the transform
spec (error aborts before the body is ever read), take the control path on
an empty operation list, otherwise parse, transform, render, and replace
the body, the Content-Length header and the observability headers. -/
def applyExperiment (a : Assigner) (env : ExpEnv) (req : Req) (experimentID : String)
    (resp : Resp) : Resp × Option String :=
  let cookieName := "ef_var_" ++ experimentID
  match getOrAssignVariant a env req experimentID cookieName with
  | (variantID, variantKey, isNew) =>
      if variantID = "" then (resp, some "failed to assign variant")
      else
        let resp1 := if isNew then addSetCookie resp (cookieString cookieName variantID) else resp
        match env.specResult with
        | Except.error e => (resp1, some (specFetchErrMsg e))
        | Except.ok spec =>
            if spec.operations.isEmpty then
              (addHeaders resp1 experimentID variantKey "control" env.elapsedMs, none)
            else
              match env.parseHTML resp1.body with
              | none => (resp1, some "parse HTML: failed")
              | some doc =>
                  match ApplyTransformations env.tenv doc spec.operations with
                  | Except.error e => (resp1, some ("apply transformations: " ++ e))
                  | Except.ok doc2 =>
                      match env.renderHTML doc2 with
                      | none => (resp1, some "render HTML: failed")
                      | some out =>
                          (addHeaders
                            { resp1 with
                              body := out,
                              headers := headerSet resp1.headers "Content-Length"
                                (toString (utf8Bytes out).length) }
                            experimentID variantKey "hit" env.elapsedMs, none)

/-- Model of isHTML in experiflow.go. -/
def isHTML (resp : Resp) : Bool := containsStr (headerGet resp.headers "Content-Type") "text/html"

/-- Experiment loop of ModifyResponse: each configured experiment in the
given iteration order (Go ranges over a map, so the order is an input
here); on an attempt error, return nil at once when failing open and the
error itself otherwise — either way the loop stops. -/
def modifyLoop (cfg : Config) (a : Assigner) (req : Req) :
    List (String × ExpEnv) → Resp → Resp × Option String
  | [], resp => (resp, none)
  | (experimentID, env) :: rest, resp =>
      match applyExperiment a env req experimentID resp with
      | (resp1, none) => modifyLoop cfg a req rest resp1
      | (resp1, some err) => if cfg.failOpen then (resp1, none) else (resp1, some err)

/-- Model of ModifyResponse in experiflow.go: non-HTML responses pass
through untouched, HTML responses run the experiment loop. -/
def ModifyResponse (cfg : Config) (a : Assigner) (req : Req)
    (exps : List (String × ExpEnv)) (resp : Resp) : Resp × Option String :=
  if isHTML resp then modifyLoop cfg a req exps resp else (resp, none)

/-! ## Header bookkeeping lemmas -/

/-- Filtering out one key leaves lookups of a different key unchanged. -/
theorem find?_filter_ne (hs : List (String × String)) (k k2 : String) (h : k2 ≠ k) :
    (hs.filter (fun p => !(p.1 == k))).find? (fun p => p.1 == k2) =
      hs.find? (fun p => p.1 == k2) := by
  induction hs with
  | nil => rfl
  | cons a hs ih =>
      have hkk2 : (k == k2) = false := beq_eq_false_iff_ne.mpr (fun hh => h hh.symm)
      by_cases hak : a.1 = k
      · have hak2 : (a.1 == k2) = false := by
          refine beq_eq_false_iff_ne.mpr (fun hh => h ?_)
          rw [← hh, hak]
        simp [List.filter_cons, hak, List.find?_cons, hak2, ih, hkk2, h]
      · by_cases hak2 : a.1 = k2 <;>
          simp [List.filter_cons, beq_eq_false_iff_ne.mpr hak, List.find?_cons, hak2, ih, hak,
            hkk2, h]

/-- A find over a list whose head part finds nothing moves to the tail part. -/
theorem find?_append_of_none {α : Type} {l1 l2 : List α} {p : α → Bool}
    (h : l1.find? p = none) : (l1 ++ l2).find? p = l2.find? p := by
  induction l1 with
  | nil => rfl
  | cons a l1 ih =>
      cases hp : p a with
      | true => simp [List.find?_cons, hp] at h
      | false =>
          simp only [List.find?_cons, hp] at h
          simp only [List.cons_append, List.find?_cons, hp]
          exact ih h

/-- Reading back the key just set yields the value set. -/
theorem headerGet_headerSet_self (hs : List (String × String)) (k v : String) :
    headerGet (headerSet hs k v) k = v := by
  unfold headerGet headerSet
  have hnone : (hs.filter (fun p => !(p.1 == k))).find? (fun p => p.1 == k) = none := by
    rw [List.find?_eq_none]
    intro x hx
    have := (List.mem_filter.mp hx).2
    simp at this
    simp [this]
  rw [find?_append_of_none hnone]
  simp [List.find?_cons]

/-- Setting one key leaves reads of a different key unchanged. -/
theorem headerGet_headerSet_ne (hs : List (String × String)) (k v k2 : String) (h : k2 ≠ k) :
    headerGet (headerSet hs k v) k2 = headerGet hs k2 := by
  unfold headerGet headerSet
  cases hfind : hs.find? (fun p => p.1 == k2) with
  | none =>
      have : ((hs.filter (fun p => !(p.1 == k))) ++ [(k, v)]).find? (fun p => p.1 == k2) = none := by
        rw [find?_append_of_none (by rw [find?_filter_ne hs k k2 h, hfind])]
        simp [List.find?_cons, beq_eq_false_iff_ne.mpr (fun hh => h hh.symm)]
      rw [this]
  | some a =>
      have hfa : (hs.filter (fun p => !(p.1 == k))).find? (fun p => p.1 == k2) = some a := by
        rw [find?_filter_ne hs k k2 h, hfind]
      rw [List.find?_append, hfa]
      rfl

/-- Adding one key leaves reads of a different key unchanged. -/
theorem headerGet_headerAdd_ne (hs : List (String × String)) (k v k2 : String) (h : k2 ≠ k) :
    headerGet (headerAdd hs k v) k2 = headerGet hs k2 := by
  unfold headerGet headerAdd
  cases hfind : hs.find? (fun p => p.1 == k2) with
  | none =>
      rw [find?_append_of_none hfind]
      simp [List.find?_cons, beq_eq_false_iff_ne.mpr (fun hh => h hh.symm)]
  | some a => rw [List.find?_append, hfind]; rfl

/-- The cookie write never changes the body. -/
theorem addSetCookie_body (resp : Resp) (c : String) : (addSetCookie resp c).body = resp.body := by
  unfold addSetCookie
  split <;> rfl

/-- The cookie write touches only the Set-Cookie header. -/
theorem addSetCookie_headerGet_ne (resp : Resp) (c k2 : String) (h : k2 ≠ "Set-Cookie") :
    headerGet (addSetCookie resp c).headers k2 = headerGet resp.headers k2 := by
  unfold addSetCookie
  split <;> simp [headerGet_headerSet_ne _ _ _ _ h, headerGet_headerAdd_ne _ _ _ _ h]

/-- The observability header write never changes the body. -/
theorem addHeaders_body (resp : Resp) (experimentID variantKey status : String) (ms : Int) :
    (addHeaders resp experimentID variantKey status ms).body = resp.body := rfl

/-- Values of the four observability headers after addHeaders. -/
theorem headerGet_addHeaders (resp : Resp) (experimentID variantKey status : String) (ms : Int) :
    headerGet (addHeaders resp experimentID variantKey status ms).headers "X-EF-Experiment" =
      experimentID ∧
    headerGet (addHeaders resp experimentID variantKey status ms).headers "X-EF-Variant" =
      variantKey ∧
    headerGet (addHeaders resp experimentID variantKey status ms).headers "X-EF-Transform" =
      status ∧
    headerGet (addHeaders resp experimentID variantKey status ms).headers "X-EF-Timing" =
      "total=" ++ toString ms ++ "ms" := by
  unfold addHeaders
  refine ⟨?_, ?_, ?_, ?_⟩
  · rw [headerGet_headerSet_ne _ _ _ _ (by decide), headerGet_headerSet_ne _ _ _ _ (by decide),
      headerGet_headerSet_ne _ _ _ _ (by decide), headerGet_headerSet_self]
  · rw [headerGet_headerSet_ne _ _ _ _ (by decide), headerGet_headerSet_ne _ _ _ _ (by decide),
      headerGet_headerSet_self]
  · rw [headerGet_headerSet_ne _ _ _ _ (by decide), headerGet_headerSet_self]
  · rw [headerGet_headerSet_self]

/-- Reads of keys other than the four observability keys and Content-Length
pass through addHeaders. -/
theorem headerGet_addHeaders_other (resp : Resp) (experimentID variantKey status : String)
    (ms : Int) (k2 : String) (h1 : k2 ≠ "X-EF-Experiment") (h2 : k2 ≠ "X-EF-Variant")
    (h3 : k2 ≠ "X-EF-Transform") (h4 : k2 ≠ "X-EF-Timing") :
    headerGet (addHeaders resp experimentID variantKey status ms).headers k2 =
      headerGet resp.headers k2 := by
  unfold addHeaders
  rw [headerGet_headerSet_ne _ _ _ _ h4, headerGet_headerSet_ne _ _ _ _ h3,
    headerGet_headerSet_ne _ _ _ _ h2, headerGet_headerSet_ne _ _ _ _ h1]

/-! ## Orchestrator theorems -/

/-- C8: on a control-path attempt (variant resolved, transform spec fetched
with an empty operation list) the attempt succeeds, the body is untouched,
the four observability headers are written with transform status control
and the variant key of the resolution, and the outcome does not depend on
the HTML parser or renderer at all: the body is never parsed. -/
theorem applyExperiment_control_path
    (a : Assigner) (env : ExpEnv) (req : Req) (experimentID : String) (resp : Resp)
    (spec : TransformSpec)
    (hspec : env.specResult = Except.ok spec)
    (hops : spec.operations = [])
    (hvid : (getOrAssignVariant a env req experimentID ("ef_var_" ++ experimentID)).1 ≠ "") :
    (applyExperiment a env req experimentID resp).2 = none ∧
    (applyExperiment a env req experimentID resp).1.body = resp.body ∧
    headerGet (applyExperiment a env req experimentID resp).1.headers "X-EF-Experiment" =
      experimentID ∧
    headerGet (applyExperiment a env req experimentID resp).1.headers "X-EF-Variant" =
      (getOrAssignVariant a env req experimentID ("ef_var_" ++ experimentID)).2.1 ∧
    headerGet (applyExperiment a env req experimentID resp).1.headers "X-EF-Transform" =
      "control" ∧
    headerGet (applyExperiment a env req experimentID resp).1.headers "X-EF-Timing" =
      "total=" ++ toString env.elapsedMs ++ "ms" ∧
    (∀ p r, applyExperiment a { env with parseHTML := p, renderHTML := r } req experimentID resp =
      applyExperiment a env req experimentID resp) := by
  rcases hg : getOrAssignVariant a env req experimentID ("ef_var_" ++ experimentID) with
    ⟨vid, vk, isNew⟩
  rw [hg] at hvid
  have hvid2 : vid ≠ "" := fun hh => hvid (by simp [hh])
  have hmain : applyExperiment a env req experimentID resp =
      (addHeaders (if isNew then addSetCookie resp (cookieString ("ef_var_" ++ experimentID) vid)
        else resp) experimentID vk "control" env.elapsedMs, none) := by
    simp only [applyExperiment, hg, hspec, hops]
    simp [hvid2]
  refine ⟨by rw [hmain], ?_, ?_, ?_, ?_, ?_, ?_⟩
  · rw [hmain]
    cases isNew <;> simp [addHeaders_body, addSetCookie_body]
  · rw [hmain]
    exact (headerGet_addHeaders _ _ _ _ _).1
  · rw [hmain]
    exact (headerGet_addHeaders _ _ _ _ _).2.1
  · rw [hmain]
    exact (headerGet_addHeaders _ _ _ _ _).2.2.1
  · rw [hmain]
    exact (headerGet_addHeaders _ _ _ _ _).2.2.2
  · intro p r
    have hg2 : getOrAssignVariant a { env with parseHTML := p, renderHTML := r } req
        experimentID ("ef_var_" ++ experimentID) = (vid, vk, isNew) := hg
    have hspec2 : ({ env with parseHTML := p, renderHTML := r } : ExpEnv).specResult =
        Except.ok spec := hspec
    have hmain2 : applyExperiment a { env with parseHTML := p, renderHTML := r } req
        experimentID resp =
        (addHeaders (if isNew then addSetCookie resp
          (cookieString ("ef_var_" ++ experimentID) vid) else resp)
          experimentID vk "control" env.elapsedMs, none) := by
      simp only [applyExperiment, hg2]
      simp [hvid2, hspec, hops]
    rw [hmain2, hmain]

/-- C9: a present, non-empty assignment cookie resolves to its value with
an empty variant key and no new assignment, so the attempt leaves the
Set-Cookie header untouched, and whenever the attempt succeeds (control or
hit) the X-EF-Variant header it writes is the empty string. -/
theorem cookie_short_circuit
    (a : Assigner) (env : ExpEnv) (req : Req) (experimentID v : String) (resp : Resp)
    (hcookie : req.cookies.lookup ("ef_var_" ++ experimentID) = some v)
    (hv : v ≠ "") :
    getOrAssignVariant a env req experimentID ("ef_var_" ++ experimentID) = (v, "", false) ∧
    headerGet (applyExperiment a env req experimentID resp).1.headers "Set-Cookie" =
      headerGet resp.headers "Set-Cookie" ∧
    ((applyExperiment a env req experimentID resp).2 = none →
      headerGet (applyExperiment a env req experimentID resp).1.headers "X-EF-Variant" = "") := by
  have hga : getOrAssignVariant a env req experimentID ("ef_var_" ++ experimentID) =
      (v, "", false) := by
    simp [getOrAssignVariant, hcookie, hv]
  refine ⟨hga, ?_⟩
  cases hs : env.specResult with
  | error e =>
      have hmain : applyExperiment a env req experimentID resp =
          (resp, some (specFetchErrMsg e)) := by
        simp only [applyExperiment, hga, hs]
        simp [hv]
      rw [hmain]
      exact ⟨rfl, by simp⟩
  | ok spec =>
      by_cases hops : spec.operations.isEmpty
      · have hmain : applyExperiment a env req experimentID resp =
            (addHeaders resp experimentID "" "control" env.elapsedMs, none) := by
          simp only [applyExperiment, hga, hs, hops]
          simp [hv]
        rw [hmain]
        refine ⟨?_, fun _ => (headerGet_addHeaders _ _ _ _ _).2.1⟩
        exact headerGet_addHeaders_other _ _ _ _ _ _ (by decide) (by decide) (by decide) (by decide)
      · cases hp : env.parseHTML resp.body with
        | none =>
            have hmain : applyExperiment a env req experimentID resp =
                (resp, some "parse HTML: failed") := by
              simp only [applyExperiment, hga, hs, hops, hp]
              simp [hv, hops, hp]
            rw [hmain]
            exact ⟨rfl, by simp⟩
        | some doc =>
            cases hr : env.renderHTML ((spec.operations).foldl (applyOpsStep env.tenv) doc) with
            | none =>
                have hmain : applyExperiment a env req experimentID resp =
                    (resp, some "render HTML: failed") := by
                  simp only [applyExperiment, hga, hs, hops, hp, ApplyTransformations]
                  simp [hv, hops, hp, hr]
                rw [hmain]
                exact ⟨rfl, by simp⟩
            | some out =>
                have hmain : applyExperiment a env req experimentID resp =
                    (addHeaders (Resp.mk (headerSet resp.headers "Content-Length" (toString (utf8Bytes out).length)) out) experimentID "" "hit" env.elapsedMs, none) := by
                  simp only [applyExperiment, hga, hs, hops, hp, ApplyTransformations]
                  simp [hv, hops, hp, hr]
                rw [hmain]
                constructor
                · rw [headerGet_addHeaders_other _ _ _ _ _ _ (by decide) (by decide)
                    (by decide) (by decide)]
                  exact headerGet_headerSet_ne _ _ _ _ (by decide)
                · exact fun _ => (headerGet_addHeaders _ _ _ _ _).2.1

/-- C2 amended: when the transform-spec fetch of an attempt fails, whether
by deadline or otherwise, the attempt aborts with an error before the body
is read, so the body stays byte-identical and the X-EF-Transform header is
left exactly as it was (no timeout or miss value is ever written); with
fail-open enabled the overall ModifyResponse still reports success and
serves that unchanged body. -/
theorem specFetch_failure_fail_open
    (cfg : Config) (a : Assigner) (env : ExpEnv) (req : Req) (experimentID : String)
    (resp : Resp) (e : FetchErr)
    (hspec : env.specResult = Except.error e)
    (hhtml : isHTML resp = true)
    (hfo : cfg.failOpen = true) :
    (applyExperiment a env req experimentID resp).2.isSome = true ∧
    (applyExperiment a env req experimentID resp).1.body = resp.body ∧
    headerGet (applyExperiment a env req experimentID resp).1.headers "X-EF-Transform" =
      headerGet resp.headers "X-EF-Transform" ∧
    ModifyResponse cfg a req [(experimentID, env)] resp =
      ((applyExperiment a env req experimentID resp).1, none) := by
  rcases hg : getOrAssignVariant a env req experimentID ("ef_var_" ++ experimentID) with
    ⟨vid, vk, isNew⟩
  by_cases hvid : vid = ""
  · have hmain : applyExperiment a env req experimentID resp =
        (resp, some "failed to assign variant") := by
      simp only [applyExperiment, hg]
      simp [hvid]
    rw [hmain]
    refine ⟨rfl, rfl, rfl, ?_⟩
    simp only [ModifyResponse, hhtml, if_true, modifyLoop, hmain, hfo]
  · have hmain : applyExperiment a env req experimentID resp =
        (if isNew then addSetCookie resp (cookieString ("ef_var_" ++ experimentID) vid)
          else resp, some (specFetchErrMsg e)) := by
      simp only [applyExperiment, hg, hspec]
      simp [hvid]
    rw [hmain]
    refine ⟨rfl, ?_, ?_, ?_⟩
    · cases isNew <;> simp [addSetCookie_body]
    · cases isNew with
      | true =>
          simpa using addSetCookie_headerGet_ne resp
            (cookieString ("ef_var_" ++ experimentID) vid) "X-EF-Transform" (by decide)
      | false => simp
    · simp only [ModifyResponse, hhtml, if_true, modifyLoop, hmain, hfo]

/-- C3 amended: ModifyResponse reports success whenever fail-open is
enabled; but an attempt failure ends the pass: the experiments after the
failing one are never attempted, the response is served in the state the
failing attempt left it, and with fail-open disabled the attempt error is
returned to the caller instead. -/
theorem modifyResponse_failure_semantics (cfg : Config) (a : Assigner) (req : Req) :
    (∀ exps resp, cfg.failOpen = true → (ModifyResponse cfg a req exps resp).2 = none) ∧
    (∀ experimentID env rest resp, isHTML resp = true →
      (applyExperiment a env req experimentID resp).2.isSome = true →
      ModifyResponse cfg a req ((experimentID, env) :: rest) resp =
        ((applyExperiment a env req experimentID resp).1,
          if cfg.failOpen = true then none
          else (applyExperiment a env req experimentID resp).2)) := by
  constructor
  · have hloop : ∀ exps resp, cfg.failOpen = true →
        (modifyLoop cfg a req exps resp).2 = none := by
      intro exps
      induction exps with
      | nil => intro resp _; rfl
      | cons p rest ih =>
          intro resp hfo
          rcases p with ⟨experimentID, env⟩
          rcases hae : applyExperiment a env req experimentID resp with ⟨r, oerr⟩
          cases oerr with
          | none => simpa [modifyLoop, hae] using ih r hfo
          | some err => simp [modifyLoop, hae, hfo]
    intro exps resp hfo
    unfold ModifyResponse
    split
    · exact hloop exps resp hfo
    · rfl
  · intro experimentID env rest resp hhtml hsome
    rcases hae : applyExperiment a env req experimentID resp with ⟨r, oerr⟩
    cases oerr with
    | none => rw [hae] at hsome; simp at hsome
    | some err =>
        simp only [ModifyResponse, hhtml, if_true, modifyLoop, hae]
        cases hfo : cfg.failOpen <;> simp

/-! ## Concrete scenarios: counterexamples and witnesses -/

/-- Configuration with fail-open enabled. -/
def cfgFailOpen : Config := ⟨true, true⟩

/-- Configuration with fail-open disabled. -/
def cfgFailClosed : Config := ⟨false, true⟩

/-- Request carrying assignment cookies for experiments exp1 and exp2. -/
def reqOne : Req := ⟨[("ef_var_exp1", "v1"), ("ef_var_exp2", "v2")], "", ""⟩

/-- An HTML origin response. -/
def respHtml : Resp := ⟨[("Content-Type", "text/html")], "<p>hi</p>"⟩

/-- Attempt environment whose transform-spec fetch hits the deadline. -/
def envSpecTimeout : ExpEnv :=
  ⟨Except.ok [], Except.error FetchErr.timeoutErr, fun _ => none, fun _ => none,
    envKeepOrder, 7, 0, 0⟩

/-- Attempt environment whose transform-spec fetch yields one setText
operation, with parser and renderer collaborators that succeed. -/
def envSpecHit : ExpEnv :=
  ⟨Except.ok [], Except.ok ⟨"1", "exp2", "v2", "kk", [⟨"setText", "p", "Buy Now", "", 0⟩]⟩,
    fun _ => some c6doc, fun _ => some "rendered", envKeepOrder, 7, 0, 0⟩

/-- Attempt environment whose transform-spec fetch yields an empty
operation list (the control variant). -/
def envSpecControl : ExpEnv :=
  ⟨Except.ok [], Except.ok ⟨"1", "exp1", "v1", "kk", []⟩, fun _ => none, fun _ => none,
    envKeepOrder, 7, 0, 0⟩

/-- C2 counterexample: an attempt whose spec fetch times out serves the
origin response byte-identically, but the served response carries no
X-EF-Transform header at all (reading it yields the empty string, exactly
as on the untouched origin response), refuting the claimed
X-EF-Transform timeout observability header. -/
theorem c2_no_timeout_header_counterexample :
    ModifyResponse cfgFailOpen middlewareAssigner reqOne [("exp1", envSpecTimeout)] respHtml =
      (respHtml, none) ∧
    headerGet (ModifyResponse cfgFailOpen middlewareAssigner reqOne
      [("exp1", envSpecTimeout)] respHtml).1.headers "X-EF-Transform" ≠ "timeout" ∧
    headerGet respHtml.headers "X-EF-Transform" = "" := by
  refine ⟨?_, ?_, ?_⟩ <;> decide

/-- C3 counterexample: with two configured experiments where the first
attempt fails, fail-open returns success immediately and the second
experiment is never attempted (running it alone would have rewritten the
body); and with fail-open disabled a failing attempt surfaces an error
from ModifyResponse. -/
theorem c3_skips_remaining_experiments_counterexample :
    ModifyResponse cfgFailOpen middlewareAssigner reqOne
      [("exp1", envSpecTimeout), ("exp2", envSpecHit)] respHtml = (respHtml, none) ∧
    (ModifyResponse cfgFailOpen middlewareAssigner reqOne
      [("exp2", envSpecHit)] respHtml).1.body = "rendered" ∧
    (ModifyResponse cfgFailOpen middlewareAssigner reqOne
      [("exp1", envSpecTimeout), ("exp2", envSpecHit)] respHtml).1.body ≠ "rendered" ∧
    (ModifyResponse cfgFailClosed middlewareAssigner reqOne
      [("exp1", envSpecTimeout)] respHtml).2.isSome = true := by
  refine ⟨?_, ?_, ?_, ?_⟩ <;> decide

/-- C2 witness: the amended fail-open equivalence at a concrete timed-out
spec fetch. -/
theorem specFetch_failure_fail_open_witness :
    (applyExperiment middlewareAssigner envSpecTimeout reqOne "exp1" respHtml).2.isSome = true ∧
    (applyExperiment middlewareAssigner envSpecTimeout reqOne "exp1" respHtml).1.body =
      respHtml.body ∧
    headerGet (applyExperiment middlewareAssigner envSpecTimeout reqOne "exp1"
      respHtml).1.headers "X-EF-Transform" = headerGet respHtml.headers "X-EF-Transform" ∧
    ModifyResponse cfgFailOpen middlewareAssigner reqOne [("exp1", envSpecTimeout)] respHtml =
      ((applyExperiment middlewareAssigner envSpecTimeout reqOne "exp1" respHtml).1, none) :=
  specFetch_failure_fail_open cfgFailOpen middlewareAssigner envSpecTimeout reqOne "exp1"
    respHtml FetchErr.timeoutErr rfl (by decide) rfl

/-- C3 witness: the amended failure semantics at a concrete failing
attempt and at the empty experiment list. -/
theorem modifyResponse_failure_semantics_witness :
    (ModifyResponse cfgFailOpen middlewareAssigner reqOne [] respHtml).2 = none ∧
    ModifyResponse cfgFailOpen middlewareAssigner reqOne [("exp1", envSpecTimeout)] respHtml =
      ((applyExperiment middlewareAssigner envSpecTimeout reqOne "exp1" respHtml).1,
        if cfgFailOpen.failOpen = true then none
        else (applyExperiment middlewareAssigner envSpecTimeout reqOne "exp1" respHtml).2) :=
  ⟨(modifyResponse_failure_semantics cfgFailOpen middlewareAssigner reqOne).1 [] respHtml rfl,
   (modifyResponse_failure_semantics cfgFailOpen middlewareAssigner reqOne).2 "exp1"
     envSpecTimeout [] respHtml (by decide) (by decide)⟩

/-- C8 witness: the control path at a concrete empty-operation spec. -/
theorem applyExperiment_control_path_witness :
    (applyExperiment middlewareAssigner envSpecControl reqOne "exp1" respHtml).2 = none ∧
    (applyExperiment middlewareAssigner envSpecControl reqOne "exp1" respHtml).1.body =
      respHtml.body ∧
    headerGet (applyExperiment middlewareAssigner envSpecControl reqOne "exp1"
      respHtml).1.headers "X-EF-Experiment" = "exp1" ∧
    headerGet (applyExperiment middlewareAssigner envSpecControl reqOne "exp1"
      respHtml).1.headers "X-EF-Variant" =
      (getOrAssignVariant middlewareAssigner envSpecControl reqOne "exp1"
        ("ef_var_" ++ "exp1")).2.1 ∧
    headerGet (applyExperiment middlewareAssigner envSpecControl reqOne "exp1"
      respHtml).1.headers "X-EF-Transform" = "control" :=
  have h := applyExperiment_control_path middlewareAssigner envSpecControl reqOne "exp1"
    respHtml ⟨"1", "exp1", "v1", "kk", []⟩ rfl rfl (by decide)
  ⟨h.1, h.2.1, h.2.2.1, h.2.2.2.1, h.2.2.2.2.1⟩

/-- C9 witness: cookie short-circuit at a concrete request. -/
theorem cookie_short_circuit_witness :
    getOrAssignVariant middlewareAssigner envSpecControl reqOne "exp1" ("ef_var_" ++ "exp1") =
      ("v1", "", false) ∧
    headerGet (applyExperiment middlewareAssigner envSpecControl reqOne "exp1"
      respHtml).1.headers "Set-Cookie" = headerGet respHtml.headers "Set-Cookie" ∧
    headerGet (applyExperiment middlewareAssigner envSpecControl reqOne "exp1"
      respHtml).1.headers "X-EF-Variant" = "" :=
  have h := cookie_short_circuit middlewareAssigner envSpecControl reqOne "exp1" "v1"
    respHtml (by decide) (by decide)
  ⟨h.1, h.2.1, h.2.2 (by decide)⟩

/-- C6 witness: the skip rules at a concrete non-matching selector and a
concrete unknown operation type. -/
theorem applyTransformations_order_isolation_witness :
    ApplyTransformations envKeepOrder c6doc [⟨"setText", ".missing", "X", "", 0⟩] =
      ApplyTransformations envKeepOrder c6doc [] ∧
    ApplyTransformations envKeepOrder c6doc [⟨"bogus", "p", "", "", 0⟩] =
      ApplyTransformations envKeepOrder c6doc [] :=
  ⟨applyTransformations_order_isolation.2.2.1 envKeepOrder c6doc
      ⟨"setText", ".missing", "X", "", 0⟩ [] rfl,
   applyTransformations_order_isolation.2.2.2.1 envKeepOrder c6doc
      ⟨"bogus", "p", "", "", 0⟩ [] rfl⟩

end EF
